import Mathlib

/-!
Verification of the NetworkTap anomaly-detection engine
(`src/web/core/anomaly_detector.py`) against its specification.

The Python module is shallowly embedded: each detector method becomes a Lean
function over explicit state.  Python floats are modelled as real numbers,
Python sets as `Finset`, Python lists as `List`.  Human-readable
`description` strings (built with f-string float formatting) are not
modelled; no stated property depends on them.  `defaultdict` grouping is
modelled by deduplicating the key list and collecting each key's group;
dict iteration order (key insertion order in Python) may differ from the
order produced by `List.dedup`, and no property stated here depends on the
relative order of anomalies coming from different group keys.
-/

open scoped Classical

namespace NetworkTap

/-- A metadata value: the Python code stores numbers, strings and lists of
ports in the `metadata` dict.  Python's int/float distinction is collapsed
into `ℝ`. -/
inductive MetaVal where
  | num (x : ℝ)
  | str (s : String)
  | natList (xs : List Nat)

/-- The `Anomaly` dataclass.  The `description` field (pure presentation
text) is omitted; all other fields are kept with the dataclass defaults. -/
structure Anomaly where
  timestamp : String
  anomaly_type : String
  severity : Nat
  title : String
  source_ip : String := ""
  dest_ip : String := ""
  dest_port : Nat := 0
  score : ℝ := 0
  metadata : List (String × MetaVal) := []

/-- Method `AnomalyDetector._calculate_entropy`: Shannon entropy of a string.
The Python code counts character frequencies of the lower-cased string in a
`defaultdict` and sums `-p * log2 p` over the frequency values; iterating
over the distinct characters of the lower-cased character list with their
counts is the same multiset of frequencies. -/
noncomputable def calculate_entropy (s : String) : ℝ :=
  if s.data = [] then 0
  else
    let l := s.data.map Char.toLower
    let n : ℝ := s.data.length
    ((l.dedup).map (fun ch =>
      let p : ℝ := (l.count ch : ℝ) / n
      if 0 < p then -(p * Real.logb 2 p) else 0)).sum

/-- If every distinct character of the lower-cased string occurs exactly `c`
times and there are `k` distinct characters, the entropy is `log2 k`. -/
lemma calculate_entropy_uniform (s : String) (k c : Nat)
    (hk : ((s.data.map Char.toLower).dedup).length = k)
    (hcount : ∀ ch ∈ (s.data.map Char.toLower).dedup,
      (s.data.map Char.toLower).count ch = c)
    (hn : s.data.length = k * c) (hc : 0 < c) (hk0 : 0 < k) :
    calculate_entropy s = Real.logb 2 (k : ℝ) := by
  have hne : s.data ≠ [] := by
    intro h
    rw [h] at hn
    simp at hn
    rcases hn with h1 | h1
    · omega
    · omega
  rw [calculate_entropy, if_neg hne]
  set l := s.data.map Char.toLower with hl
  have hkR : (0 : ℝ) < (k : ℝ) := by exact_mod_cast hk0
  have hcR : (0 : ℝ) < (c : ℝ) := by exact_mod_cast hc
  have hnR : ((s.data.length : ℝ)) = (k : ℝ) * (c : ℝ) := by exact_mod_cast hn
  have hterm : ∀ ch ∈ l.dedup,
      (fun ch =>
        let p : ℝ := (l.count ch : ℝ) / (s.data.length : ℝ)
        if 0 < p then -(p * Real.logb 2 p) else 0) ch
        = Real.logb 2 (k : ℝ) / (k : ℝ) := by
    intro ch hch
    have hcnt := hcount ch hch
    simp only [hcnt]
    have hp : ((c : ℝ)) / (s.data.length : ℝ) = 1 / (k : ℝ) := by
      rw [hnR]
      field_simp
      ring
    rw [hp]
    have hpos : (0 : ℝ) < 1 / (k : ℝ) := by positivity
    rw [if_pos hpos]
    rw [one_div, Real.logb_inv]
    field_simp
  dsimp only
  rw [List.map_congr_left hterm, List.map_const', List.sum_replicate, hk]
  rw [nsmul_eq_mul]
  field_simp

/-- Claim C9 (corrected): `entropy("") = 0`, `entropy("aaaaaaaaaaaaaaaa") = 0`,
and the entropy of a 16-character string is `log2 16 = 4` provided its
characters are pairwise distinct *after lower-casing* (the code lower-cases
the string before counting frequencies). -/
theorem calculate_entropy_spec :
    calculate_entropy "" = 0 ∧
    calculate_entropy "aaaaaaaaaaaaaaaa" = 0 ∧
    ∀ s : String, s.data.length = 16 → (s.data.map Char.toLower).Nodup →
      calculate_entropy s = 4 := by
  refine ⟨?_, ?_, ?_⟩
  · rw [calculate_entropy, if_pos rfl]
  · have h := calculate_entropy_uniform "aaaaaaaaaaaaaaaa" 1 16
      (by decide) (by decide) (by decide) (by decide) (by decide)
    rw [h]
    simp
  · intro s hlen hnd
    have hded : (s.data.map Char.toLower).dedup = s.data.map Char.toLower :=
      List.dedup_eq_self.mpr hnd
    have h := calculate_entropy_uniform s 16 1
      (by rw [hded]; simpa using hlen)
      (by
        intro ch hch
        rw [hded] at hch
        exact List.count_eq_one_of_mem hnd hch)
      (by omega) (by omega) (by omega)
    rw [h]
    rw [show ((16 : Nat) : ℝ) = 2 ^ (4 : ℕ) by norm_num, Real.logb_pow]
    simp [Real.logb_self_eq_one]

/-- Claim C9, witness: the 16 pairwise-distinct (also after lower-casing)
characters of `"abcdefghijklmnop"` give entropy exactly 4. -/
theorem calculate_entropy_spec_witness :
    calculate_entropy "abcdefghijklmnop" = 4 :=
  calculate_entropy_spec.2.2 "abcdefghijklmnop" (by decide) (by decide)

/-- Claim C9, counterexample: `"ABCDEFGHabcdefgh"` has 16 pairwise-distinct
characters, but the code lower-cases before counting, so each of the 8
lower-case letters occurs twice and the entropy is `log2 8 = 3`, not 4. -/
theorem calculate_entropy_distinct_counterexample :
    "ABCDEFGHabcdefgh".data.Nodup ∧ "ABCDEFGHabcdefgh".data.length = 16 ∧
    calculate_entropy "ABCDEFGHabcdefgh" ≠ 4 := by
  refine ⟨by decide, by decide, ?_⟩
  have h := calculate_entropy_uniform "ABCDEFGHabcdefgh" 8 2
    (by decide) (by decide) (by decide) (by decide) (by decide)
  rw [h]
  rw [show ((8 : Nat) : ℝ) = 2 ^ (3 : ℕ) by norm_num, Real.logb_pow]
  simp [Real.logb_self_eq_one]

/-- The `BaselineStats` class.  The unused `ip_conn_counts` / `dns_domains`
dicts (initialised but never read or written elsewhere in the module) are
omitted.  `last_update` is a UTC instant in whole seconds (`none` before the
first update). -/
structure BaselineStats where
  window_hours : Nat := 24
  hourly_conn_counts : List Nat := []
  hourly_bytes : List Nat := []
  known_dest_ips : Finset String := ∅
  known_dest_ports : Finset Nat := ∅
  last_update : Option Nat := none

/-- Method `BaselineStats.update`: append the hourly figures, drop the oldest
sample (`pop(0)`) once a sequence exceeds `window_hours`, grow the known
destination sets and stamp `last_update`. -/
def BaselineStats.update (b : BaselineStats) (conn_count total_bytes : Nat)
    (dest_ips : Finset String) (dest_ports : Finset Nat) (now_sec : Nat) :
    BaselineStats :=
  let counts := b.hourly_conn_counts ++ [conn_count]
  let counts := if counts.length > b.window_hours then counts.tail else counts
  let bytes := b.hourly_bytes ++ [total_bytes]
  let bytes := if bytes.length > b.window_hours then bytes.tail else bytes
  { b with hourly_conn_counts := counts, hourly_bytes := bytes,
           known_dest_ips := b.known_dest_ips ∪ dest_ips,
           known_dest_ports := b.known_dest_ports ∪ dest_ports,
           last_update := some now_sec }

/-- Property `BaselineStats.avg_conn_count`: mean of the hourly connection counts,
0 when there are no samples. -/
noncomputable def BaselineStats.avg_conn_count (b : BaselineStats) : ℝ :=
  if b.hourly_conn_counts = [] then 0
  else (b.hourly_conn_counts.map (fun x => (x : ℝ))).sum /
    (b.hourly_conn_counts.length : ℝ)

/-- Property `BaselineStats.std_conn_count`: population standard deviation of the
hourly connection counts, 0 with fewer than 2 samples. -/
noncomputable def BaselineStats.std_conn_count (b : BaselineStats) : ℝ :=
  if b.hourly_conn_counts.length < 2 then 0
  else Real.sqrt
    ((b.hourly_conn_counts.map
        (fun x => ((x : ℝ) - b.avg_conn_count) ^ 2)).sum /
      (b.hourly_conn_counts.length : ℝ))

/-- Table `AnomalyDetector.SENSITIVITY_THRESHOLDS[...]["z_score"]` combined with the
constructor's `.get(sensitivity, medium)` lookup: the z-score threshold of a
sensitivity profile, defaulting to the medium profile for unknown keys. -/
noncomputable def sensitivity_z_score (sensitivity : String) : ℝ :=
  if sensitivity = "low" then 3.5
  else if sensitivity = "medium" then 2.5
  else if sensitivity = "high" then 2.0
  else 2.5

/-- Method `AnomalyDetector._detect_volume_anomalies`.  `current_count` is
`len(connections)`; `z_thr` is `self.thresholds["z_score"]`; `now` is the
cycle's `datetime.now(timezone.utc).isoformat()` string. -/
noncomputable def detect_volume_anomalies (b : BaselineStats)
    (current_count : Nat) (z_thr : ℝ) (now : String) : List Anomaly :=
  if b.hourly_conn_counts.length < 3 then []
  else
    let expected_5min := b.avg_conn_count / 12
    if 0 < expected_5min ∧ 0 < b.std_conn_count then
      let z := ((current_count : ℝ) - expected_5min) / (b.std_conn_count / 12)
      if |z| > z_thr then
        [{ timestamp := now, anomaly_type := "volume_anomaly",
           severity := if 0 < z then 2 else 3,
           title := "Traffic Volume Anomaly",
           score := |z|,
           metadata := [("current", MetaVal.num current_count),
                        ("expected", MetaVal.num expected_5min),
                        ("z_score", MetaVal.num z)] }]
      else []
    else []

/-- The baseline of the spec's volume scenario: four hourly samples with
mean 600 and population standard deviation 60. -/
def scenarioBaseline : BaselineStats := { hourly_conn_counts := [540, 540, 660, 660] }

/-- Claim C3 (part): the scenario baseline `[540, 540, 660, 660]` has mean
600 and population standard deviation 60. -/
lemma scenario_baseline_stats :
    scenarioBaseline.avg_conn_count = 600 ∧ scenarioBaseline.std_conn_count = 60 := by
  have havg : scenarioBaseline.avg_conn_count = 600 := by
    rw [BaselineStats.avg_conn_count, if_neg (by simp [scenarioBaseline])]
    norm_num [scenarioBaseline]
  refine ⟨havg, ?_⟩
  rw [BaselineStats.std_conn_count, if_neg (by norm_num [scenarioBaseline]), havg]
  have h2 : ((scenarioBaseline.hourly_conn_counts.map
      (fun x => ((x : ℝ) - 600) ^ 2)).sum /
      (scenarioBaseline.hourly_conn_counts.length : ℝ)) = 60 ^ 2 := by
    norm_num [scenarioBaseline]
  rw [h2]
  exact Real.sqrt_sq (by norm_num)

/-- Claim C3 (confirmed): the volume detector emits nothing with fewer than
3 hourly samples or when `expected = avg/12` or `sigma = std/12` is not
positive; otherwise it emits at most one anomaly per cycle, exactly when
`|z| > z_thr` for `z = (actual - expected)/sigma`, with severity 2 for a
spike and 3 otherwise, `score = |z|` and metadata carrying the actual count,
the expected count and z.  In the scenario `avg_hourly = 600`,
`std_hourly = 60`, actual count 100 (so `z = 10`), every sensitivity profile
yields the single severity-2 anomaly with score 10. -/
theorem detect_volume_anomalies_spec :
    (∀ b n z_thr now, b.hourly_conn_counts.length < 3 →
      detect_volume_anomalies b n z_thr now = []) ∧
    (∀ b : BaselineStats, ∀ n z_thr now,
      ¬ 0 < b.avg_conn_count / 12 ∨ ¬ 0 < b.std_conn_count / 12 →
      detect_volume_anomalies b n z_thr now = []) ∧
    (∀ b n z_thr now, (detect_volume_anomalies b n z_thr now).length ≤ 1) ∧
    (∀ b : BaselineStats, ∀ n z_thr now,
      3 ≤ b.hourly_conn_counts.length →
      0 < b.avg_conn_count / 12 → 0 < b.std_conn_count / 12 →
      detect_volume_anomalies b n z_thr now =
        (if |((n : ℝ) - b.avg_conn_count / 12) / (b.std_conn_count / 12)| > z_thr then
          [{ timestamp := now, anomaly_type := "volume_anomaly",
             severity :=
               if 0 < ((n : ℝ) - b.avg_conn_count / 12) / (b.std_conn_count / 12)
               then 2 else 3,
             title := "Traffic Volume Anomaly",
             score := |((n : ℝ) - b.avg_conn_count / 12) / (b.std_conn_count / 12)|,
             metadata :=
               [("current", MetaVal.num n),
                ("expected", MetaVal.num (b.avg_conn_count / 12)),
                ("z_score",
                  MetaVal.num (((n : ℝ) - b.avg_conn_count / 12) /
                    (b.std_conn_count / 12)))] }]
         else [])) ∧
    (∀ now p, detect_volume_anomalies scenarioBaseline 100
        (sensitivity_z_score p) now =
      [{ timestamp := now, anomaly_type := "volume_anomaly", severity := 2,
         title := "Traffic Volume Anomaly", score := 10,
         metadata := [("current", MetaVal.num 100),
                      ("expected", MetaVal.num 50),
                      ("z_score", MetaVal.num 10)] }]) := by
  have hsigma : ∀ b : BaselineStats,
      (0 < b.std_conn_count / 12 ↔ 0 < b.std_conn_count) := by
    intro b
    constructor
    · intro h; nlinarith
    · intro h; positivity
  refine ⟨?_, ?_, ?_, ?_, ?_⟩
  · intro b n z_thr now h
    rw [detect_volume_anomalies, if_pos h]
  · intro b n z_thr now h
    rw [detect_volume_anomalies]
    dsimp only
    split
    · rfl
    · rw [if_neg]
      intro hcon
      rcases h with h | h
      · exact h hcon.1
      · exact h ((hsigma b).mpr hcon.2)
  · intro b n z_thr now
    rw [detect_volume_anomalies]
    dsimp only
    split
    · simp
    · split
      · split <;> simp
      · simp
  · intro b n z_thr now h3 hexp hstd
    rw [detect_volume_anomalies]
    dsimp only
    rw [if_neg (by omega), if_pos ⟨hexp, (hsigma b).mp hstd⟩]
  · intro now p
    have havg := scenario_baseline_stats.1
    have hstd := scenario_baseline_stats.2
    have hthr : sensitivity_z_score p ≤ 3.5 := by
      rw [sensitivity_z_score]
      split
      · norm_num
      · split
        · norm_num
        · split <;> norm_num
    rw [detect_volume_anomalies]
    dsimp only
    rw [if_neg (by norm_num [scenarioBaseline]), havg, hstd]
    rw [if_pos (by norm_num)]
    have hz : (((100 : Nat) : ℝ) - (600 : ℝ) / 12) / ((60 : ℝ) / 12) = 10 := by
      norm_num
    rw [hz]
    rw [if_pos (by rw [show |(10 : ℝ)| = 10 by norm_num]; linarith)]
    norm_num

/-- Claim C3, witness: an empty baseline (0 hourly samples) makes the volume
detector emit nothing. -/
theorem detect_volume_anomalies_spec_witness :
    detect_volume_anomalies {} 100 2.5 "t" = [] :=
  detect_volume_anomalies_spec.1 {} 100 2.5 "t" (by simp)

/-- A parsed record of Zeek's `conn.log`, restricted to the fields the
detector reads.  A missing field is its Python `get` default (`""`, `0`).
`ts` is the parsed timestamp in epoch seconds; `none` models a missing or
unparsable timestamp (which the Python code skips). -/
structure Conn where
  orig_h : String := ""
  resp_h : String := ""
  resp_p : Nat := 0
  ts : Option ℝ := none
  orig_bytes : Nat := 0
  resp_bytes : Nat := 0
  service : String := ""

/-- The prefix exclusion tuple of `_detect_rare_destinations`
(`dest_ip.startswith((...))`, stated on the character lists so that it
evaluates inside the kernel). -/
def excluded_dest (dest : String) : Bool :=
  (["10.", "192.168.", "172.16.", "224.", "255.", "ff"]).any
    (fun p => p.data.isPrefixOf dest.data)

/-- One iteration of the `for conn in connections` loop of
`_detect_rare_destinations`: skip excluded or already-known destinations,
otherwise emit a `rare_destination` anomaly and immediately add the
destination to the known set. -/
noncomputable def rare_step (now : String)
    (st : List Anomaly × Finset String) (conn : Conn) :
    List Anomaly × Finset String :=
  if excluded_dest conn.resp_h then st
  else if conn.resp_h ≠ "" ∧ conn.resp_h ∉ st.2 then
    (st.1 ++ [{ timestamp := now, anomaly_type := "rare_destination",
                severity := 3, title := "Connection to New External IP",
                source_ip := conn.orig_h, dest_ip := conn.resp_h,
                dest_port := conn.resp_p, score := 0.7,
                metadata := [("service", MetaVal.str conn.service)] }],
     insert conn.resp_h st.2)
  else st

/-- Method `AnomalyDetector._detect_rare_destinations`.  Returns the emitted
anomalies (capped at 5 by the `[:5]` on return — the insertion into the
known set is *not* capped) together with the mutated baseline. -/
noncomputable def detect_rare_destinations (b : BaselineStats)
    (conns : List Conn) (now : String) : List Anomaly × BaselineStats :=
  if b.known_dest_ips.card < 10 then ([], b)
  else
    let res := conns.foldl (rare_step now) ([], b.known_dest_ips)
    (res.1.take 5, { b with known_dest_ips := res.2 })

/-- The known-destination set only grows along the rare-destination loop. -/
lemma rare_fold_subset (now : String) (conns : List Conn) :
    ∀ st : List Anomaly × Finset String,
      st.2 ⊆ (conns.foldl (rare_step now) st).2 := by
  induction conns with
  | nil => intro st; simp
  | cons c rest ih =>
      intro st
      refine Finset.Subset.trans ?_ (ih (rare_step now st c))
      rw [rare_step]
      split
      · exact Finset.Subset.refl _
      · split
        · exact Finset.subset_insert _ _
        · exact Finset.Subset.refl _

/-- After the rare-destination loop, every non-excluded, non-empty
destination of the batch is in the known set. -/
lemma rare_fold_covers (now : String) (conns : List Conn) :
    ∀ st : List Anomaly × Finset String, ∀ c ∈ conns,
      excluded_dest c.resp_h = false → c.resp_h ≠ "" →
      c.resp_h ∈ (conns.foldl (rare_step now) st).2 := by
  induction conns with
  | nil => intro st c hc; simp at hc
  | cons c0 rest ih =>
      intro st c hc hex hne
      rcases List.mem_cons.mp hc with h | h
      · subst h
        rw [List.foldl_cons]
        refine rare_fold_subset now rest (rare_step now st c) ?_
        rw [rare_step, hex]
        simp only [Bool.false_eq_true, if_false]
        split
        · exact Finset.mem_insert_self _ _
        · rename_i hcon
          rw [Classical.not_and_iff_or_not_not] at hcon
          rcases hcon with h | h
          · exact absurd hne (by simpa using h)
          · simpa using h
      · exact ih (rare_step now st c0) c h hex hne

/-- If every destination of the batch is excluded, empty, or already known,
the rare-destination loop leaves the state untouched. -/
lemma rare_fold_noop (now : String) (conns : List Conn) :
    ∀ st : List Anomaly × Finset String,
      (∀ c ∈ conns, excluded_dest c.resp_h = true ∨ c.resp_h = "" ∨
        c.resp_h ∈ st.2) →
      conns.foldl (rare_step now) st = st := by
  induction conns with
  | nil => intro st _; simp
  | cons c0 rest ih =>
      intro st h
      have hstep : rare_step now st c0 = st := by
        rcases h c0 (List.mem_cons_self c0 rest) with h0 | h0 | h0
        · rw [rare_step, h0]
          simp
        · rw [rare_step]
          split
          · rfl
          · rw [if_neg]
            intro hcon
            exact hcon.1 h0
        · rw [rare_step]
          split
          · rfl
          · rw [if_neg]
            intro hcon
            exact hcon.2 h0
      rw [List.foldl_cons, hstep]
      exact ih st (fun c hc => h c (List.mem_cons_of_mem c0 hc))

/-- Claim C5 (confirmed): provided `known_destination_ips` already holds at
least 10 entries, running the rare-destination detector twice on the same
batch without a state reset emits anomalies only on the first pass: the
first pass inserts every qualifying destination into the known set, so the
second pass emits nothing. -/
theorem detect_rare_destinations_idempotent (b : BaselineStats)
    (conns : List Conn) (now now2 : String)
    (h10 : 10 ≤ b.known_dest_ips.card) :
    (detect_rare_destinations
      (detect_rare_destinations b conns now).2 conns now2).1 = [] := by
  have hnot : ¬ b.known_dest_ips.card < 10 := by omega
  set K1 := (conns.foldl (rare_step now) ([], b.known_dest_ips)).2 with hK1
  have hinner : (detect_rare_destinations b conns now).2 =
      { b with known_dest_ips := K1 } := by
    rw [detect_rare_destinations, if_neg hnot]
  rw [hinner]
  have hsub : b.known_dest_ips ⊆ K1 :=
    rare_fold_subset now conns ([], b.known_dest_ips)
  have hcard : ¬ ({ b with known_dest_ips := K1 } : BaselineStats).known_dest_ips.card < 10 := by
    have := Finset.card_le_card hsub
    simp only
    omega
  rw [detect_rare_destinations, if_neg hcard]
  dsimp only
  have hnoop : conns.foldl (rare_step now2) ([], K1) = ([], K1) := by
    refine rare_fold_noop now2 conns ([], K1) ?_
    intro c hc
    by_cases hex : excluded_dest c.resp_h
    · exact Or.inl hex
    · by_cases hne : c.resp_h = ""
      · exact Or.inr (Or.inl hne)
      · exact Or.inr (Or.inr
          (rare_fold_covers now conns ([], b.known_dest_ips) c hc
            (by simpa using hex) hne))
  rw [hnoop]
  simp

/-- A warm baseline with exactly 10 known destination IPs. -/
def warmBaseline : BaselineStats :=
  { known_dest_ips :=
      {"a0", "a1", "a2", "a3", "a4", "a5", "a6", "a7", "a8", "a9"} }

/-- Claim C5, witness: with a warm 10-IP baseline and a batch holding one
new external destination, the second pass over the same batch emits
nothing. -/
theorem detect_rare_destinations_idempotent_witness :
    (detect_rare_destinations
      (detect_rare_destinations warmBaseline [{ orig_h := "s", resp_h := "1.2.3.4", resp_p := 80 }] "t").2
      [{ orig_h := "s", resp_h := "1.2.3.4", resp_p := 80 }] "t2").1 = [] :=
  detect_rare_destinations_idempotent warmBaseline
    [{ orig_h := "s", resp_h := "1.2.3.4", resp_p := 80 }] "t" "t2" (by decide)

/-- The keys of `_detect_port_scan`'s `src_to_ports` grouping dict: the
source IPs of the connections with a truthy source and destination port.
(The dict iterates in key-insertion order; `dedup` may order the distinct
keys differently, and no property stated here depends on that order.  The
`src_to_dests` dict built alongside is never read and is not modelled.) -/
def scanSources (conns : List Conn) : List String :=
  ((conns.filter (fun c => c.orig_h ≠ "" ∧ c.resp_p ≠ 0)).map
    (fun c => c.orig_h)).dedup

/-- The port set `src_to_ports[src]` accumulated for a source. -/
def portsOf (conns : List Conn) (src : String) : Finset Nat :=
  ((conns.filter (fun c => c.orig_h = src ∧ c.resp_p ≠ 0)).map
    (fun c => c.resp_p)).toFinset

/-- The keys of the `port_to_dests` grouping dict: destination ports of the
connections with a truthy destination port. -/
def scanPorts (conns : List Conn) : List Nat :=
  ((conns.filter (fun c => c.resp_p ≠ 0)).map (fun c => c.resp_p)).dedup

/-- The host set `port_to_dests[port]` accumulated for a destination port
(the destination IP is added even when it is the empty string). -/
def destsOf (conns : List Conn) (port : Nat) : Finset String :=
  ((conns.filter (fun c => c.resp_p = port)).map (fun c => c.resp_h)).toFinset

/-- The horizontal-scan check for one source: more than 20 distinct ports
emits a `port_scan` anomaly.  Python's `list(ports)[:10]` sample has an
unspecified set order; it is canonicalised here to the sorted order. -/
noncomputable def port_scan_anomaly_for (conns : List Conn) (now : String)
    (src : String) : List Anomaly :=
  if (portsOf conns src).card > 20 then
    [{ timestamp := now, anomaly_type := "port_scan", severity := 2,
       title := "Potential Port Scan Detected", source_ip := src,
       score := min 1 (((portsOf conns src).card : ℝ) / 50),
       metadata := [("port_count", MetaVal.num (portsOf conns src).card),
                    ("sample_ports",
                      MetaVal.natList (((portsOf conns src).sort (· ≤ ·)).take 10))] }]
  else []

/-- The vertical-scan check for one destination port: more than 10 distinct
hosts emits a `host_scan` anomaly. -/
noncomputable def host_scan_anomaly_for (conns : List Conn) (now : String)
    (port : Nat) : List Anomaly :=
  if (destsOf conns port).card > 10 then
    [{ timestamp := now, anomaly_type := "host_scan", severity := 2,
       title := "Potential Host Scan Detected", dest_port := port,
       score := min 1 (((destsOf conns port).card : ℝ) / 20),
       metadata := [("host_count", MetaVal.num (destsOf conns port).card)] }]
  else []

/-- The grouping keys are duplicate-free. -/
lemma scanSources_nodup (conns : List Conn) : (scanSources conns).Nodup := by
  rw [scanSources]; exact List.nodup_dedup _

/-- The port grouping keys are duplicate-free. -/
lemma scanPorts_nodup (conns : List Conn) : (scanPorts conns).Nodup := by
  rw [scanPorts]; exact List.nodup_dedup _

/-- Method `AnomalyDetector._detect_port_scan`: both grouping loops, horizontal
results first. -/
noncomputable def detect_port_scan (conns : List Conn) (now : String) :
    List Anomaly :=
  (scanSources conns).flatMap (port_scan_anomaly_for conns now) ++
  (scanPorts conns).flatMap (host_scan_anomaly_for conns now)

/-- A `flatMap` whose function vanishes on all keys is empty. -/
lemma flatMap_eq_nil_of_forall {α β : Type} (l : List α) (g : α → List β)
    (h : ∀ y ∈ l, g y = []) : l.flatMap g = [] := by
  induction l with
  | nil => simp
  | cons a rest ih =>
      rw [List.flatMap_cons, h a (List.mem_cons_self a rest),
        ih (fun y hy => h y (List.mem_cons_of_mem a hy))]
      simp

/-- A `flatMap` over a duplicate-free key list in which only one key
contributes collapses to that key's contribution. -/
lemma flatMap_eq_of_unique {α β : Type} :
    ∀ l : List α, l.Nodup → ∀ x : α, x ∈ l → ∀ g : α → List β,
      (∀ y ∈ l, y ≠ x → g y = []) → l.flatMap g = g x := by
  intro l
  induction l with
  | nil =>
      intro _ x hx
      simp at hx
  | cons a rest ih =>
      intro hnd x hx g h
      rw [List.flatMap_cons]
      rcases List.mem_cons.mp hx with hax | hax
      · have hrest : rest.flatMap g = [] := by
          refine flatMap_eq_nil_of_forall rest g (fun y hy => ?_)
          refine h y (List.mem_cons_of_mem a hy) (fun hcon => ?_)
          rw [hcon, hax] at hy
          exact (List.nodup_cons.mp hnd).1 hy
        rw [hrest, List.append_nil, hax]
      · have hga : g a = [] := by
          refine h a (List.mem_cons_self a rest) (fun hcon => ?_)
          rw [← hcon] at hax
          exact (List.nodup_cons.mp hnd).1 hax
        rw [hga, List.nil_append]
        exact ih (List.nodup_cons.mp hnd).2 x hax g
          (fun y hy hne => h y (List.mem_cons_of_mem a hy) hne)

/-- Every anomaly of the horizontal check carries type `port_scan` and its
source. -/
lemma port_scan_anomaly_for_fields (conns : List Conn) (now : String)
    (src : String) : ∀ a ∈ port_scan_anomaly_for conns now src,
      a.anomaly_type = "port_scan" ∧ a.source_ip = src := by
  intro a ha
  rw [port_scan_anomaly_for] at ha
  split at ha
  · rw [List.mem_singleton] at ha
    subst ha
    exact ⟨rfl, rfl⟩
  · simp at ha

/-- Every anomaly of the vertical check carries type `host_scan` and its
port. -/
lemma host_scan_anomaly_for_fields (conns : List Conn) (now : String)
    (port : Nat) : ∀ a ∈ host_scan_anomaly_for conns now port,
      a.anomaly_type = "host_scan" ∧ a.dest_port = port := by
  intro a ha
  rw [host_scan_anomaly_for] at ha
  split at ha
  · rw [List.mem_singleton] at ha
    subst ha
    exact ⟨rfl, rfl⟩
  · simp at ha

/-- The Boolean filter selecting the `port_scan` anomaly of one source. -/
def isPortScanOf (src : String) (a : Anomaly) : Bool :=
  a.anomaly_type == "port_scan" && a.source_ip == src

/-- The Boolean filter selecting the `host_scan` anomaly of one port. -/
def isHostScanOf (port : Nat) (a : Anomaly) : Bool :=
  a.anomaly_type == "host_scan" && a.dest_port == port

/-- The vertical half never matches a `port_scan` filter and vice versa. -/
lemma detect_port_scan_filter (conns : List Conn) (now : String) :
    (∀ src, (detect_port_scan conns now).filter (isPortScanOf src) =
      (scanSources conns).flatMap
        (fun y => (port_scan_anomaly_for conns now y).filter (isPortScanOf src))) ∧
    (∀ port, (detect_port_scan conns now).filter (isHostScanOf port) =
      (scanPorts conns).flatMap
        (fun y => (host_scan_anomaly_for conns now y).filter (isHostScanOf port))) := by
  constructor
  · intro src
    rw [detect_port_scan, List.filter_append, ← List.filter_flatMap]
    have hvert : ((scanPorts conns).flatMap
        (host_scan_anomaly_for conns now)).filter (isPortScanOf src) = [] := by
      rw [List.filter_eq_nil_iff]
      intro a ha
      rcases List.mem_flatMap.mp ha with ⟨port, _, hmem⟩
      have := (host_scan_anomaly_for_fields conns now port a hmem).1
      simp [isPortScanOf, this]
    rw [hvert, List.append_nil]
  · intro port
    rw [detect_port_scan, List.filter_append, ← List.filter_flatMap]
    have hhorz : ((scanSources conns).flatMap
        (port_scan_anomaly_for conns now)).filter (isHostScanOf port) = [] := by
      rw [List.filter_eq_nil_iff]
      intro a ha
      rcases List.mem_flatMap.mp ha with ⟨src, _, hmem⟩
      have := (port_scan_anomaly_for_fields conns now src a hmem).1
      simp [isHostScanOf, this]
    rw [hhorz, List.nil_append]

/-- Claim C8 (confirmed): in one batch, a source with exactly 20 distinct
destination ports yields no `port_scan` anomaly while 21 distinct ports
yield exactly one with `score = min(1.0, port_count/50)`; a destination
port probed on exactly 10 distinct hosts yields no `host_scan` anomaly
while 11 distinct hosts yield exactly one with
`score = min(1.0, host_count/20)`; both thresholds are strict. -/
theorem detect_port_scan_spec :
    (∀ conns now src, (portsOf conns src).card = 20 →
      (detect_port_scan conns now).filter (isPortScanOf src) = []) ∧
    (∀ conns now src, src ∈ scanSources conns → (portsOf conns src).card = 21 →
      (detect_port_scan conns now).filter (isPortScanOf src) =
        [{ timestamp := now, anomaly_type := "port_scan", severity := 2,
           title := "Potential Port Scan Detected", source_ip := src,
           score := min 1 ((21 : ℝ) / 50),
           metadata := [("port_count", MetaVal.num 21),
                        ("sample_ports", MetaVal.natList
                          (((portsOf conns src).sort (· ≤ ·)).take 10))] }]) ∧
    (∀ conns now port, (destsOf conns port).card = 10 →
      (detect_port_scan conns now).filter (isHostScanOf port) = []) ∧
    (∀ conns now port, port ∈ scanPorts conns → (destsOf conns port).card = 11 →
      (detect_port_scan conns now).filter (isHostScanOf port) =
        [{ timestamp := now, anomaly_type := "host_scan", severity := 2,
           title := "Potential Host Scan Detected", dest_port := port,
           score := min 1 ((11 : ℝ) / 20),
           metadata := [("host_count", MetaVal.num 11)] }]) := by
  refine ⟨?_, ?_, ?_, ?_⟩
  · intro conns now src hcard
    rw [(detect_port_scan_filter conns now).1 src]
    refine flatMap_eq_nil_of_forall _ _ (fun y hy => ?_)
    by_cases hsrc : y = src
    · subst hsrc
      rw [port_scan_anomaly_for, if_neg (by omega)]
      simp
    · rw [List.filter_eq_nil_iff]
      intro a ha
      have hf := (port_scan_anomaly_for_fields conns now y a ha).2
      simp [isPortScanOf, hf, hsrc]
  · intro conns now src hmem hcard
    rw [(detect_port_scan_filter conns now).1 src]
    have hone : port_scan_anomaly_for conns now src =
        [{ timestamp := now, anomaly_type := "port_scan", severity := 2,
           title := "Potential Port Scan Detected", source_ip := src,
           score := min 1 ((21 : ℝ) / 50),
           metadata := [("port_count", MetaVal.num 21),
                        ("sample_ports", MetaVal.natList
                          (((portsOf conns src).sort (· ≤ ·)).take 10))] }] := by
      rw [port_scan_anomaly_for, hcard, if_pos (by omega)]
      norm_num
    have hother : ∀ y ∈ scanSources conns, y ≠ src →
        (port_scan_anomaly_for conns now y).filter (isPortScanOf src) = [] := by
      intro y hy hne
      rw [List.filter_eq_nil_iff]
      intro a ha
      have hf := (port_scan_anomaly_for_fields conns now y a ha).2
      simp [isPortScanOf, hf, hne]
    rw [flatMap_eq_of_unique (scanSources conns) (scanSources_nodup conns) src hmem
      (fun y => (port_scan_anomaly_for conns now y).filter (isPortScanOf src))
      hother, hone]
    simp [isPortScanOf]
  · intro conns now port hcard
    rw [(detect_port_scan_filter conns now).2 port]
    refine flatMap_eq_nil_of_forall _ _ (fun y hy => ?_)
    by_cases hport : y = port
    · subst hport
      rw [host_scan_anomaly_for, if_neg (by omega)]
      simp
    · rw [List.filter_eq_nil_iff]
      intro a ha
      have hf := (host_scan_anomaly_for_fields conns now y a ha).2
      simp [isHostScanOf, hf, hport]
  · intro conns now port hmem hcard
    rw [(detect_port_scan_filter conns now).2 port]
    have hone : host_scan_anomaly_for conns now port =
        [{ timestamp := now, anomaly_type := "host_scan", severity := 2,
           title := "Potential Host Scan Detected", dest_port := port,
           score := min 1 ((11 : ℝ) / 20),
           metadata := [("host_count", MetaVal.num 11)] }] := by
      rw [host_scan_anomaly_for, hcard, if_pos (by omega)]
      norm_num
    have hother : ∀ y ∈ scanPorts conns, y ≠ port →
        (host_scan_anomaly_for conns now y).filter (isHostScanOf port) = [] := by
      intro y hy hne
      rw [List.filter_eq_nil_iff]
      intro a ha
      have hf := (host_scan_anomaly_for_fields conns now y a ha).2
      simp [isHostScanOf, hf, hne]
    rw [flatMap_eq_of_unique (scanPorts conns) (scanPorts_nodup conns) port hmem
      (fun y => (host_scan_anomaly_for conns now y).filter (isHostScanOf port))
      hother, hone]
    simp [isHostScanOf]

/-- A batch in which source `"s"` contacts 21 distinct ports on one host. -/
def scanBatch : List Conn :=
  (List.range 21).map (fun i => { orig_h := "s", resp_h := "h", resp_p := i + 1 })

/-- Claim C8, witness: the 21-distinct-port batch yields exactly one
`port_scan` anomaly for `"s"`. -/
theorem detect_port_scan_spec_witness :
    (detect_port_scan scanBatch "t").filter (isPortScanOf "s") =
      [{ timestamp := "t", anomaly_type := "port_scan", severity := 2,
         title := "Potential Port Scan Detected", source_ip := "s",
         score := min 1 ((21 : ℝ) / 50),
         metadata := [("port_count", MetaVal.num 21),
                      ("sample_ports", MetaVal.natList
                        (((portsOf scanBatch "s").sort (· ≤ ·)).take 10))] }] :=
  detect_port_scan_spec.2.1 scanBatch "t" "s" (by decide) (by decide)

/-- The statistics helpers of `_detect_beaconing`, split out of the loop
body: the sorted copy of a timestamp list (`times.sort()`). -/
noncomputable def sortedTimes (timesIn : List ℝ) : List ℝ :=
  List.insertionSort (· ≤ ·) timesIn

/-- Inter-arrival intervals between consecutive entries
(`[times[i+1] - times[i] for i in range(len(times)-1)]`). -/
def intervalsOf (times : List ℝ) : List ℝ :=
  List.zipWith (fun a b => b - a) times times.tail

/-- Mean of a numeric sequence (`sum(...) / len(...)`). -/
noncomputable def meanOf (xs : List ℝ) : ℝ := xs.sum / (xs.length : ℝ)

/-- Population standard deviation of a numeric sequence. -/
noncomputable def stdOf (xs : List ℝ) : ℝ :=
  Real.sqrt ((xs.map (fun i => (i - meanOf xs) ^ 2)).sum / (xs.length : ℝ))

/-- The coefficient of variation of the sorted inter-arrival intervals of a
timestamp list.  (The source guards the division with
`if avg_interval > 0 else float('inf')`; that fallback is unreachable,
since the loop has already skipped any pair with `avg_interval < 1`.) -/
noncomputable def beaconCv (timesIn : List ℝ) : ℝ :=
  stdOf (intervalsOf (sortedTimes timesIn)) /
    meanOf (intervalsOf (sortedTimes timesIn))

/-- The body of `_detect_beaconing`'s per-pair loop.  The source stores the
pair as the string `src->dst` and re-splits it when emitting; the pair is
kept as a pair here, which agrees with the source whenever the IPs contain
no `->`. -/
noncomputable def beacon_pair_anomalies (src dst : String) (timesIn : List ℝ)
    (now : String) : List Anomaly :=
  if timesIn.length < 5 then []
  else if intervalsOf (sortedTimes timesIn) = [] then []
  else if meanOf (intervalsOf (sortedTimes timesIn)) < 1 then []
  else if beaconCv timesIn < 0.3 ∧ (sortedTimes timesIn).length ≥ 5 then
    [{ timestamp := now, anomaly_type := "beaconing", severity := 2,
       title := "Potential Beaconing Detected", source_ip := src,
       dest_ip := dst, score := 1 - beaconCv timesIn,
       metadata :=
         [("interval_seconds",
            MetaVal.num (meanOf (intervalsOf (sortedTimes timesIn)))),
          ("beacon_count", MetaVal.num (sortedTimes timesIn).length),
          ("regularity", MetaVal.num (1 - beaconCv timesIn))] }]
  else []

/-- The keys of the `pair_times` grouping dict: the (source, destination)
pairs of connections with truthy source, destination and timestamp. -/
def beaconPairs (conns : List Conn) : List (String × String) :=
  ((conns.filter
      (fun c => c.orig_h ≠ "" ∧ c.resp_h ≠ "" ∧ c.ts.isSome)).map
    (fun c => (c.orig_h, c.resp_h))).dedup

/-- The timestamp list `pair_times[src->dst]` accumulated for one pair. -/
def pairTimes (conns : List Conn) (p : String × String) : List ℝ :=
  (conns.filter
      (fun c => c.orig_h = p.1 ∧ c.resp_h = p.2 ∧
        c.orig_h ≠ "" ∧ c.resp_h ≠ "")).filterMap (fun c => c.ts)

/-- Method `AnomalyDetector._detect_beaconing`. -/
noncomputable def detect_beaconing (conns : List Conn) (now : String) :
    List Anomaly :=
  (beaconPairs conns).flatMap
    (fun p => beacon_pair_anomalies p.1 p.2 (pairTimes conns p) now)

/-- The Boolean filter selecting the `beaconing` anomaly of one pair. -/
def isBeaconOf (p : String × String) (a : Anomaly) : Bool :=
  a.anomaly_type == "beaconing" && a.source_ip == p.1 && a.dest_ip == p.2

/-- Every anomaly of a pair's beaconing check carries type `beaconing` and
the pair's endpoints. -/
lemma beacon_pair_anomalies_fields (src dst : String) (timesIn : List ℝ)
    (now : String) : ∀ a ∈ beacon_pair_anomalies src dst timesIn now,
      a.anomaly_type = "beaconing" ∧ a.source_ip = src ∧ a.dest_ip = dst := by
  intro a ha
  rw [beacon_pair_anomalies] at ha
  split at ha
  · simp at ha
  · split at ha
    · simp at ha
    · split at ha
      · simp at ha
      · split at ha
        · rw [List.mem_singleton] at ha
          subst ha
          exact ⟨rfl, rfl, rfl⟩
        · simp at ha

/-- The pair keys are duplicate-free. -/
lemma beaconPairs_nodup (conns : List Conn) : (beaconPairs conns).Nodup := by
  rw [beaconPairs]; exact List.nodup_dedup _

/-- Claim C4 (confirmed): for a (source, destination) pair of the batch,
with intervals taken between consecutive sorted timestamps, exactly one
`beaconing` anomaly (severity 2, `score = 1 - cv`) is emitted for the pair
when it has at least 5 timestamped events, mean interval at least 1 second
and `cv = std/mean < 0.3`; no beaconing anomaly is emitted for a pair with
fewer than 5 events, mean interval under 1 second, or `cv ≥ 0.3`.  Five
events at exact 300-second spacing yield the single anomaly with score 1. -/
theorem detect_beaconing_spec :
    (∀ conns now p, (pairTimes conns p).length < 5 →
      (detect_beaconing conns now).filter (isBeaconOf p) = []) ∧
    (∀ conns now p, meanOf (intervalsOf (sortedTimes (pairTimes conns p))) < 1 →
      (detect_beaconing conns now).filter (isBeaconOf p) = []) ∧
    (∀ conns now p, 0.3 ≤ beaconCv (pairTimes conns p) →
      (detect_beaconing conns now).filter (isBeaconOf p) = []) ∧
    (∀ conns now p, p ∈ beaconPairs conns →
      5 ≤ (pairTimes conns p).length →
      1 ≤ meanOf (intervalsOf (sortedTimes (pairTimes conns p))) →
      beaconCv (pairTimes conns p) < 0.3 →
      (detect_beaconing conns now).filter (isBeaconOf p) =
        [{ timestamp := now, anomaly_type := "beaconing", severity := 2,
           title := "Potential Beaconing Detected", source_ip := p.1,
           dest_ip := p.2, score := 1 - beaconCv (pairTimes conns p),
           metadata :=
             [("interval_seconds",
                MetaVal.num (meanOf (intervalsOf (sortedTimes (pairTimes conns p))))),
              ("beacon_count",
                MetaVal.num (sortedTimes (pairTimes conns p)).length),
              ("regularity",
                MetaVal.num (1 - beaconCv (pairTimes conns p)))] }]) := by
  have hfilter : ∀ conns now (p : String × String),
      (detect_beaconing conns now).filter (isBeaconOf p) =
        (beaconPairs conns).flatMap
          (fun q => (beacon_pair_anomalies q.1 q.2 (pairTimes conns q) now).filter
            (isBeaconOf p)) := by
    intro conns now p
    rw [detect_beaconing, ← List.filter_flatMap]
  have hother : ∀ conns now (p : String × String), ∀ q ∈ beaconPairs conns,
      q ≠ p →
      (beacon_pair_anomalies q.1 q.2 (pairTimes conns q) now).filter
        (isBeaconOf p) = [] := by
    intro conns now p q hq hne
    rw [List.filter_eq_nil_iff]
    intro a ha
    obtain ⟨ht, hs, hd⟩ := beacon_pair_anomalies_fields q.1 q.2 _ now a ha
    by_cases h1 : q.1 = p.1
    · have h2 : q.2 ≠ p.2 := by
        intro h2
        exact hne (Prod.ext h1 h2)
      simp [isBeaconOf, hs, hd, h1, h2]
    · simp [isBeaconOf, hs, hd, h1]
  have hself : ∀ conns now (p : String × String),
      (beacon_pair_anomalies p.1 p.2 (pairTimes conns p) now).filter
        (isBeaconOf p) = beacon_pair_anomalies p.1 p.2 (pairTimes conns p) now := by
    intro conns now p
    rw [List.filter_eq_self]
    intro a ha
    obtain ⟨ht, hs, hd⟩ := beacon_pair_anomalies_fields p.1 p.2 _ now a ha
    simp [isBeaconOf, ht, hs, hd]
  have hnil : ∀ (src dst : String) (ts : List ℝ) (now : String),
      (ts.length < 5 ∨ meanOf (intervalsOf (sortedTimes ts)) < 1 ∨
        0.3 ≤ beaconCv ts) →
      beacon_pair_anomalies src dst ts now = [] := by
    intro src dst ts now h
    rw [beacon_pair_anomalies]
    split
    · rfl
    · split
      · rfl
      · rename_i h5 _
        split
        · rfl
        · rename_i hm
          rw [if_neg]
          intro hcon
          rcases h with h | h | h
          · exact h5 h
          · exact hm h
          · exact absurd hcon.1 (by linarith)
  have hzero : ∀ conns now (p : String × String),
      (beacon_pair_anomalies p.1 p.2 (pairTimes conns p) now = []) →
      (detect_beaconing conns now).filter (isBeaconOf p) = [] := by
    intro conns now p hp
    rw [hfilter]
    refine flatMap_eq_nil_of_forall _ _ (fun q hq => ?_)
    by_cases hqp : q = p
    · subst hqp
      rw [hself, hp]
    · exact hother conns now p q hq hqp
  refine ⟨?_, ?_, ?_, ?_⟩
  · intro conns now p h
    exact hzero conns now p (hnil p.1 p.2 _ now (Or.inl h))
  · intro conns now p h
    exact hzero conns now p (hnil p.1 p.2 _ now (Or.inr (Or.inl h)))
  · intro conns now p h
    exact hzero conns now p (hnil p.1 p.2 _ now (Or.inr (Or.inr h)))
  · intro conns now p hmem h5 hm hcv
    rw [hfilter]
    rw [flatMap_eq_of_unique (beaconPairs conns) (beaconPairs_nodup conns) p hmem
      (fun q => (beacon_pair_anomalies q.1 q.2 (pairTimes conns q) now).filter
        (isBeaconOf p))
      (fun q hq hne => hother conns now p q hq hne)]
    rw [hself]
    have hlen : (sortedTimes (pairTimes conns p)).length =
        (pairTimes conns p).length := by
      rw [sortedTimes, List.length_insertionSort]
    have hne5 : ¬ (pairTimes conns p).length < 5 := by omega
    have hnonempty : intervalsOf (sortedTimes (pairTimes conns p)) ≠ [] := by
      intro hcon
      have : (intervalsOf (sortedTimes (pairTimes conns p))).length = 0 := by
        rw [hcon]; rfl
      rw [intervalsOf, List.length_zipWith, List.length_tail, hlen] at this
      omega
    rw [beacon_pair_anomalies, if_neg hne5, if_neg hnonempty,
      if_neg (by linarith), if_pos ⟨hcv, by omega⟩]

/-- Five connections from `"a"` to `"b"` at exact 300-second spacing. -/
noncomputable def beaconBatch : List Conn :=
  [{ orig_h := "a", resp_h := "b", ts := some 0 },
   { orig_h := "a", resp_h := "b", ts := some 300 },
   { orig_h := "a", resp_h := "b", ts := some 600 },
   { orig_h := "a", resp_h := "b", ts := some 900 },
   { orig_h := "a", resp_h := "b", ts := some 1200 }]

/-- The grouped timestamps of the 300-second batch. -/
lemma beaconBatch_times : pairTimes beaconBatch ("a", "b") =
    [0, 300, 600, 900, 1200] := by
  simp [pairTimes, beaconBatch]

/-- The 300-second timestamps are already sorted. -/
lemma beaconBatch_sorted :
    sortedTimes [(0 : ℝ), 300, 600, 900, 1200] =
      [(0 : ℝ), 300, 600, 900, 1200] := by
  rw [sortedTimes]
  refine List.Sorted.insertionSort_eq ?_
  norm_num [List.sorted_cons]

/-- The intervals of the 300-second batch are four exact 300s gaps. -/
lemma beaconBatch_intervals :
    intervalsOf [(0 : ℝ), 300, 600, 900, 1200] = [300, 300, 300, 300] := by
  rw [intervalsOf]
  norm_num

/-- Mean interval 300, coefficient of variation 0. -/
lemma beaconBatch_stats :
    meanOf [(300 : ℝ), 300, 300, 300] = 300 ∧
    beaconCv [(0 : ℝ), 300, 600, 900, 1200] = 0 := by
  have hmean : meanOf [(300 : ℝ), 300, 300, 300] = 300 := by
    rw [meanOf]
    norm_num
  refine ⟨hmean, ?_⟩
  rw [beaconCv, beaconBatch_sorted, beaconBatch_intervals, hmean]
  rw [stdOf, hmean]
  have hsq : (List.map (fun i => (i - 300) ^ 2) [(300 : ℝ), 300, 300, 300]).sum /
      (([(300 : ℝ), 300, 300, 300] : List ℝ).length : ℝ) = 0 := by
    norm_num
  rw [hsq, Real.sqrt_zero]
  norm_num

/-- Claim C4, witness: the 300-second batch yields exactly one beaconing
anomaly for the pair, severity 2 with score 1. -/
theorem detect_beaconing_spec_witness :
    (detect_beaconing beaconBatch "t").filter (isBeaconOf ("a", "b")) =
      [{ timestamp := "t", anomaly_type := "beaconing", severity := 2,
         title := "Potential Beaconing Detected", source_ip := "a",
         dest_ip := "b", score := 1,
         metadata := [("interval_seconds", MetaVal.num 300),
                      ("beacon_count", MetaVal.num 5),
                      ("regularity", MetaVal.num 1)] }] := by
  have hmem : ("a", "b") ∈ beaconPairs beaconBatch := by
    simp [beaconPairs, beaconBatch]
  have h := detect_beaconing_spec.2.2.2 beaconBatch "t" ("a", "b") hmem
    (by rw [beaconBatch_times]; norm_num)
    (by rw [beaconBatch_times, beaconBatch_sorted, beaconBatch_intervals,
        beaconBatch_stats.1]; norm_num)
    (by rw [beaconBatch_times, beaconBatch_stats.2]; norm_num)
  rw [h, beaconBatch_times, beaconBatch_sorted, beaconBatch_intervals,
    beaconBatch_stats.1]
  rw [show beaconCv [(0 : ℝ), 300, 600, 900, 1200] = 0 from beaconBatch_stats.2]
  norm_num

/-- A parsed record of Zeek's `dns.log`, restricted to the fields the
detector reads. -/
structure DnsQuery where
  query : String := ""
  qtype_name : String := ""
  orig_h : String := ""

/-- Expression `domain.split(".")[0]`: the leftmost label of a domain name, i.e. the
characters before the first dot (the whole string when there is no dot). -/
def leftmostLabel (domain : String) : String :=
  ⟨domain.data.takeWhile (fun c => c ≠ '.')⟩

/-- The DGA check of `_detect_dns_anomalies` for one query: skip short
domains and private/local TLDs (`domain.endswith(tld)`, stated on character
lists); when the leftmost label is longer than 15 characters and its
Shannon entropy exceeds 3.5, emit a `dns_dga` anomaly with
`score = min(1.0, entropy/4.0)`. -/
noncomputable def dga_anomalies_for (q : DnsQuery) (now : String) :
    List Anomaly :=
  if q.query = "" ∨ q.query.length < 10 then []
  else if ([".local", ".lan", ".internal", ".arpa"].any
      (fun tld => tld.data.isSuffixOf q.query.data)) then []
  else if (leftmostLabel q.query).length > 15 then
    if calculate_entropy (leftmostLabel q.query) > 3.5 then
      [{ timestamp := now, anomaly_type := "dns_dga", severity := 2,
         title := "Potential DGA Domain", source_ip := q.orig_h,
         score := min 1 (calculate_entropy (leftmostLabel q.query) / 4.0),
         metadata := [("domain", MetaVal.str q.query),
                      ("entropy",
                        MetaVal.num (calculate_entropy (leftmostLabel q.query)))] }]
    else []
  else []

/-- Expression `len([q for q in queries if q.get("qtype_name") == "TXT"])`: the number
of TXT queries in the batch. -/
def txtCount (queries : List DnsQuery) : Nat :=
  (queries.filter (fun q => q.qtype_name = "TXT")).length

/-- Method `AnomalyDetector._detect_dns_anomalies`: the DGA loop followed by the
TXT-tunneling check, with the combined result truncated by the `[:5]` on
return.  `queries` is the parsed 5-minute DNS batch; a missing or
unreadable `dns.log` is the empty batch. -/
noncomputable def detect_dns_anomalies (queries : List DnsQuery)
    (now : String) : List Anomaly :=
  ((queries.flatMap (fun q => dga_anomalies_for q now)) ++
    (if txtCount queries > 20 then
      ([{ timestamp := now, anomaly_type := "dns_tunneling", severity := 2,
          title := "Potential DNS Tunneling",
          score := min 1 ((txtCount queries : ℝ) / 50),
          metadata := [("txt_query_count",
            MetaVal.num (txtCount queries))] }] : List Anomaly)
    else [])).take 5

/-- Every anomaly of the DGA loop carries type `dns_dga`. -/
lemma dga_anomalies_for_fields (q : DnsQuery) (now : String) :
    ∀ a ∈ dga_anomalies_for q now, a.anomaly_type = "dns_dga" := by
  intro a ha
  rw [dga_anomalies_for] at ha
  split at ha
  · simp at ha
  · split at ha
    · simp at ha
    · split at ha
      · split at ha
        · rw [List.mem_singleton] at ha
          subst ha
          rfl
        · simp at ha
      · simp at ha

/-- The Boolean filter selecting `dns_tunneling` anomalies. -/
def isTunneling (a : Anomaly) : Bool := a.anomaly_type == "dns_tunneling"

/-- Claim C2 (corrected): the `[:5]` cap on `_detect_dns_anomalies` applies
to the *combined* DGA + tunneling list, with the DGA anomalies first, so
the single `dns_tunneling` anomaly (severity 2,
`score = min(1.0, txt_count/50)`) survives exactly when the TXT count
exceeds 20 *and* the batch produced fewer than 5 `dns_dga` anomalies. -/
theorem detect_dns_tunneling_capped (queries : List DnsQuery) (now : String) :
    (detect_dns_anomalies queries now).filter isTunneling =
      (if 20 < txtCount queries ∧
          (queries.flatMap (fun q => dga_anomalies_for q now)).length < 5 then
        [{ timestamp := now, anomaly_type := "dns_tunneling", severity := 2,
           title := "Potential DNS Tunneling",
           score := min 1 ((txtCount queries : ℝ) / 50),
           metadata := [("txt_query_count",
             MetaVal.num (txtCount queries))] }]
      else []) := by
  rw [detect_dns_anomalies]
  set dga := queries.flatMap (fun q => dga_anomalies_for q now) with hdga
  have hdgafilter : ∀ l : List Anomaly, (∀ a ∈ l, a ∈ dga) →
      l.filter isTunneling = [] := by
    intro l hl
    rw [List.filter_eq_nil_iff]
    intro a ha
    rcases List.mem_flatMap.mp (hl a ha) with ⟨q, _, hmem⟩
    have := dga_anomalies_for_fields q now a hmem
    simp [isTunneling, this]
  by_cases h5 : dga.length < 5
  · rw [List.take_append_eq_append_take,
      List.take_of_length_le (by omega), List.filter_append,
      hdgafilter dga (fun a ha => ha)]
    rw [List.nil_append]
    by_cases h20 : 20 < txtCount queries
    · rw [if_pos (by omega : txtCount queries > 20), if_pos ⟨h20, h5⟩]
      obtain ⟨m, hm⟩ : ∃ m, 5 - dga.length = m + 1 := ⟨4 - dga.length, by omega⟩
      rw [hm, List.take_succ_cons, List.take_nil]
      simp [isTunneling]
    · rw [if_neg (by omega : ¬ txtCount queries > 20),
        if_neg (fun hcon => h20 hcon.1)]
      simp
  · rw [List.take_append_eq_append_take,
      show 5 - dga.length = 0 by omega, List.take_zero, List.append_nil,
      if_neg (fun hcon => h5 hcon.2)]
    exact hdgafilter (dga.take 5) (fun a ha => List.mem_of_mem_take ha)

/-- A DNS batch with five DGA-triggering queries and 21 TXT queries. -/
def dgaTxtBatch : List DnsQuery :=
  List.replicate 5 { query := "abcdefghijklmnop.com", qtype_name := "A" } ++
  List.replicate 21 { query := "ab.cd", qtype_name := "TXT" }

/-- The 16 distinct characters of the label give entropy `log2 16 = 4`. -/
lemma entropy_sixteen_distinct : calculate_entropy "abcdefghijklmnop" = 4 := by
  have h := calculate_entropy_uniform "abcdefghijklmnop" 16 1
    (by decide) (by decide) (by decide) (by decide) (by decide)
  rw [h, show ((16 : Nat) : ℝ) = 2 ^ (4 : ℕ) by norm_num, Real.logb_pow]
  simp [Real.logb_self_eq_one]

/-- Each DGA query of the batch emits one `dns_dga` anomaly. -/
lemma dga_anomalies_for_batch_query :
    dga_anomalies_for { query := "abcdefghijklmnop.com", qtype_name := "A" } "t" =
      [{ timestamp := "t", anomaly_type := "dns_dga", severity := 2,
         title := "Potential DGA Domain", source_ip := "",
         score := 1,
         metadata := [("domain", MetaVal.str "abcdefghijklmnop.com"),
                      ("entropy", MetaVal.num 4)] }] := by
  rw [dga_anomalies_for]
  rw [if_neg (by decide), if_neg (by decide),
    if_pos (by decide),
    show leftmostLabel "abcdefghijklmnop.com" = "abcdefghijklmnop" by decide,
    entropy_sixteen_distinct, if_pos (by norm_num)]
  norm_num

/-- Each TXT query of the batch emits no DGA anomaly. -/
lemma dga_anomalies_for_txt_query :
    dga_anomalies_for { query := "ab.cd", qtype_name := "TXT" } "t" = [] := by
  rw [dga_anomalies_for, if_pos (by decide)]

/-- Claim C2, counterexample: the batch has 21 TXT queries (more than 20)
yet no `dns_tunneling` anomaly is emitted, because its five `dns_dga`
anomalies exhaust the per-cycle cap of 5 that the code applies to the
combined DNS anomaly list. -/
theorem detect_dns_tunneling_counterexample :
    txtCount dgaTxtBatch = 21 ∧
    (detect_dns_anomalies dgaTxtBatch "t").filter isTunneling = [] := by
  have htxt : txtCount dgaTxtBatch = 21 := by
    decide
  refine ⟨htxt, ?_⟩
  have hdga : dgaTxtBatch.flatMap (fun q => dga_anomalies_for q "t") =
      List.replicate 5
        { timestamp := "t", anomaly_type := "dns_dga", severity := 2,
          title := "Potential DGA Domain", source_ip := "",
          score := 1,
          metadata := [("domain", MetaVal.str "abcdefghijklmnop.com"),
                       ("entropy", MetaVal.num (4 : ℝ))] } := by
    rw [dgaTxtBatch]
    rw [List.flatMap_append]
    have h1 : (List.replicate 5
        ({ query := "abcdefghijklmnop.com", qtype_name := "A" } : DnsQuery)).flatMap
        (fun q => dga_anomalies_for q "t") =
        List.replicate 5
          { timestamp := "t", anomaly_type := "dns_dga", severity := 2,
            title := "Potential DGA Domain", source_ip := "",
            score := 1,
            metadata := [("domain", MetaVal.str "abcdefghijklmnop.com"),
                         ("entropy", MetaVal.num (4 : ℝ))] } := by
      simp [List.flatMap_replicate, dga_anomalies_for_batch_query]
    have h2 : (List.replicate 21
        ({ query := "ab.cd", qtype_name := "TXT" } : DnsQuery)).flatMap
        (fun q => dga_anomalies_for q "t") = [] := by
      simp [List.flatMap_replicate, dga_anomalies_for_txt_query]
    rw [h1, h2, List.append_nil]
  rw [detect_dns_anomalies, hdga]
  rw [List.take_append_eq_append_take, List.take_of_length_le (by simp)]
  rw [show (5 : Nat) - (List.replicate 5
      ({ timestamp := "t", anomaly_type := "dns_dga", severity := 2,
         title := "Potential DGA Domain", source_ip := "",
         score := 1,
         metadata := [("domain", MetaVal.str "abcdefghijklmnop.com"),
                      ("entropy", MetaVal.num (4 : ℝ))] } : Anomaly)).length = 0
    by simp, List.take_zero, List.append_nil]
  rw [List.filter_eq_nil_iff]
  intro a ha
  rw [List.eq_of_mem_replicate ha]
  simp [isTunneling]

/-- Method `AnomalyDetector._update_baseline`: fold the 5-minute batch into the
baseline, scaling counts and bytes to hourly estimates. -/
def update_baseline (b : BaselineStats) (conns : List Conn) (now_sec : Nat) :
    BaselineStats :=
  BaselineStats.update b (conns.length * 12)
    ((conns.map (fun c => c.orig_bytes + c.resp_bytes)).sum * 12)
    (((conns.filter (fun c => c.resp_h ≠ "")).map (fun c => c.resp_h)).toFinset)
    (((conns.filter (fun c => c.resp_p ≠ 0)).map (fun c => c.resp_p)).toFinset)
    now_sec

/-- The guard of the periodic baseline refresh:
`not self.baseline.last_update or
 (datetime.now(timezone.utc) - self.baseline.last_update).seconds > 3600`.
For a nonnegative timedelta, `.seconds` is the *seconds component* — the
elapsed time modulo 24 hours, not the total elapsed seconds — hence the
`% 86400` here. -/
def should_update_baseline (b : BaselineStats) (now_sec : Nat) : Bool :=
  match b.last_update with
  | none => true
  | some t => (now_sec - t) % 86400 > 3600

/-- Claim C7 (code bug): the fold guard uses `timedelta.seconds`, which
wraps every 24 hours.  25 hours (90000 s) after the last fold the guard is
false even though far more than one hour has elapsed; 2 hours after it is
true, 30 minutes after it is false, and with no previous fold it is true. -/
theorem should_update_baseline_wraps_after_24h :
    3600 < 90000 ∧
    should_update_baseline { last_update := some 0 } 90000 = false ∧
    should_update_baseline { last_update := some 0 } 7200 = true ∧
    should_update_baseline { last_update := some 0 } 1800 = false ∧
    should_update_baseline { last_update := none } 0 = true := by
  decide

/-- The in-memory state the detection cycle mutates: the baseline store and
the anomaly history (`self.baseline`, `self.anomalies`). -/
structure DetectorState where
  baseline : BaselineStats
  anomalies : List Anomaly

/-- Constant `self.max_anomalies`. -/
def max_anomalies : Nat := 1000

/-- The store-and-notify loop of `_run_detection_cycle`
(`for anomaly in anomalies: append; await callback(...)`).  The callback
returns `false` to model raising an exception, which aborts the loop after
the current anomaly has already been appended; the Boolean result records
whether the loop completed (`false` = an exception escaped).  A `None`
callback is `fun _ => true`. -/
def deliver (cb : Anomaly → Bool) : List Anomaly → List Anomaly →
    List Anomaly × Bool
  | [], hist => (hist, true)
  | a :: rest, hist =>
      if cb a then deliver cb rest (hist ++ [a]) else (hist ++ [a], false)

/-- The concatenated detector output of one cycle, in source order. -/
noncomputable def cycle_emissions (st : DetectorState) (conns : List Conn)
    (dns : List DnsQuery) (z_thr : ℝ) (now : String) : List Anomaly :=
  detect_volume_anomalies st.baseline conns.length z_thr now ++
  (detect_rare_destinations st.baseline conns now).1 ++
  detect_port_scan conns now ++
  detect_beaconing conns now ++
  detect_dns_anomalies dns now

/-- Method `AnomalyDetector._run_detection_cycle`.  `conns` and `dns` are the
5-minute batches the two log readers produce (`[]` for a missing or empty
log).  An empty connection batch returns early.  Otherwise all five
detectors run (the rare-destination detector also mutating the baseline's
known-IP set), the results are appended and delivered one at a time, and —
only when no callback exception escaped — the history is trimmed to
`max_anomalies` and the baseline conditionally folded.  The Boolean result
is `false` when a callback exception escaped the cycle (to be caught by the
`start` loop). -/
noncomputable def run_detection_cycle (st : DetectorState) (conns : List Conn)
    (dns : List DnsQuery) (cb : Anomaly → Bool) (z_thr : ℝ) (now : String)
    (now_sec : Nat) : DetectorState × Bool :=
  if conns = [] then (st, true)
  else
    let b2 := (detect_rare_destinations st.baseline conns now).2
    let res := deliver cb (cycle_emissions st conns dns z_thr now) st.anomalies
    if res.2 then
      let hist2 := if res.1.length > max_anomalies then
        res.1.drop (res.1.length - max_anomalies) else res.1
      let b3 := if should_update_baseline b2 now_sec then
        update_baseline b2 conns now_sec else b2
      ({ baseline := b3, anomalies := hist2 }, true)
    else
      ({ baseline := b2, anomalies := res.1 }, false)

/-- A prefix of successful callbacks just moves anomalies into the
history. -/
lemma deliver_append (cb : Anomaly → Bool) (l1 l2 : List Anomaly)
    (h : ∀ x ∈ l1, cb x = true) :
    ∀ hist, deliver cb (l1 ++ l2) hist = deliver cb l2 (hist ++ l1) := by
  induction l1 with
  | nil =>
      intro hist
      simp [deliver]
  | cons a rest ih =>
      intro hist
      rw [List.cons_append, deliver, if_pos (h a (List.mem_cons_self a rest))]
      rw [ih (fun x hx => h x (List.mem_cons_of_mem a hx)) (hist ++ [a])]
      rw [List.append_assoc]
      rfl

/-- A failing callback aborts the loop with the failing anomaly already
appended. -/
lemma deliver_cons_false (cb : Anomaly → Bool) (a : Anomaly)
    (rest hist : List Anomaly) (hfail : cb a = false) :
    deliver cb (a :: rest) hist = (hist ++ [a], false) := by
  rw [deliver, hfail]
  simp

/-- Claim C1 (corrected): a callback exception is *not* caught per-anomaly:
it aborts the store-and-notify loop.  When the callback succeeds on the
emissions in `l1` and raises on the next anomaly `a`, the cycle ends with
the history extended by `l1 ++ [a]` only — every later anomaly of the same
cycle is neither appended nor delivered — and the history trim and the
conditional baseline fold are both skipped (the exception is caught one
level up, in the `start` loop, so the next cycle still runs). -/
theorem run_cycle_callback_failure_aborts (st : DetectorState)
    (conns : List Conn) (dns : List DnsQuery) (z_thr : ℝ) (now : String)
    (now_sec : Nat) (cb : Anomaly → Bool) (l1 : List Anomaly) (a : Anomaly)
    (rest : List Anomaly) (hconns : conns ≠ [])
    (hem : cycle_emissions st conns dns z_thr now = l1 ++ a :: rest)
    (hok : ∀ x ∈ l1, cb x = true) (hfail : cb a = false) :
    run_detection_cycle st conns dns cb z_thr now now_sec =
      ({ baseline := (detect_rare_destinations st.baseline conns now).2,
         anomalies := st.anomalies ++ l1 ++ [a] }, false) := by
  rw [run_detection_cycle, if_neg hconns]
  dsimp only
  rw [hem, deliver_append cb l1 (a :: rest) hok st.anomalies,
    deliver_cons_false cb a rest (st.anomalies ++ l1) hfail]
  simp

/-- A batch probing ports 98 and 99 on 11 hosts each (22 connections with
an empty source address, so only the vertical scan check fires). -/
def scan2Batch : List Conn :=
  ((List.range 11).map (fun i => { resp_h := "a" ++ toString i, resp_p := 98 })) ++
  ((List.range 11).map (fun i => { resp_h := "a" ++ toString i, resp_p := 99 }))

/-- The `host_scan` anomaly of one port of `scan2Batch`. -/
noncomputable def hostScanAnomaly (port : Nat) : Anomaly :=
  { timestamp := "t", anomaly_type := "host_scan", severity := 2,
    title := "Potential Host Scan Detected", dest_port := port,
    score := min 1 ((11 : ℝ) / 20),
    metadata := [("host_count", MetaVal.num 11)] }

/-- Starting from an empty state, `scan2Batch` emits exactly the two
host-scan anomalies. -/
lemma scan2Batch_emissions :
    cycle_emissions ⟨{}, []⟩ scan2Batch [] 2.5 "t" =
      [hostScanAnomaly 98, hostScanAnomaly 99] := by
  have hv : detect_volume_anomalies ({} : BaselineStats) scan2Batch.length 2.5 "t" = [] := by
    rw [detect_volume_anomalies, if_pos (by simp)]
  have hr : detect_rare_destinations ({} : BaselineStats) scan2Batch "t" =
      ([], {}) := by
    rw [detect_rare_destinations, if_pos (by simp)]
  have hhoriz : (scanSources scan2Batch).flatMap
      (port_scan_anomaly_for scan2Batch "t") = [] := by
    rw [show scanSources scan2Batch = [] from by decide]
    rfl
  have h98 : host_scan_anomaly_for scan2Batch "t" 98 = [hostScanAnomaly 98] := by
    rw [host_scan_anomaly_for, if_pos (by decide),
      show (destsOf scan2Batch 98).card = 11 from by decide, hostScanAnomaly]
    norm_num
  have h99 : host_scan_anomaly_for scan2Batch "t" 99 = [hostScanAnomaly 99] := by
    rw [host_scan_anomaly_for, if_pos (by decide),
      show (destsOf scan2Batch 99).card = 11 from by decide, hostScanAnomaly]
    norm_num
  have hp : detect_port_scan scan2Batch "t" =
      [hostScanAnomaly 98, hostScanAnomaly 99] := by
    rw [detect_port_scan, hhoriz, List.nil_append,
      show scanPorts scan2Batch = [98, 99] from by decide]
    rw [List.flatMap_cons, List.flatMap_cons, h98, h99]
    rfl
  have hb : detect_beaconing scan2Batch "t" = [] := by
    rw [detect_beaconing, show beaconPairs scan2Batch = [] from by decide]
    rfl
  have hd : detect_dns_anomalies [] "t" = [] := by
    rw [detect_dns_anomalies]
    rfl
  rw [cycle_emissions, hv, hr, hp, hb, hd]
  rfl

/-- Claim C1, counterexample: from an empty state, the `scan2Batch` cycle
emits two anomalies, but with a callback that raises on the first one only
that first anomaly reaches the history — the remaining anomaly of the same
cycle is dropped — and the conditional baseline fold that was due
(`last_update = None` makes the guard true) is skipped. -/
theorem run_cycle_callback_counterexample :
    (cycle_emissions ⟨{}, []⟩ scan2Batch [] 2.5 "t").length = 2 ∧
    ((run_detection_cycle ⟨{}, []⟩ scan2Batch [] (fun _ => false) 2.5 "t" 0).1.anomalies).length = 1 ∧
    should_update_baseline ({} : BaselineStats) 0 = true ∧
    (run_detection_cycle ⟨{}, []⟩ scan2Batch [] (fun _ => false) 2.5 "t" 0).1.baseline.last_update = none := by
  have hne : scan2Batch ≠ [] := by
    rw [scan2Batch]
    decide
  have hr2 : (detect_rare_destinations ({} : BaselineStats) scan2Batch "t").2 = {} := by
    rw [detect_rare_destinations, if_pos (by simp)]
  have hrun : run_detection_cycle ⟨{}, []⟩ scan2Batch [] (fun _ => false) 2.5 "t" 0 =
      ({ baseline := (detect_rare_destinations ({} : BaselineStats) scan2Batch "t").2,
         anomalies := ([] : List Anomaly) ++ [hostScanAnomaly 98] }, false) := by
    rw [run_detection_cycle, if_neg hne]
    dsimp only
    rw [scan2Batch_emissions,
      deliver_cons_false (fun _ => false) (hostScanAnomaly 98)
        [hostScanAnomaly 99] ([] : List Anomaly) rfl]
    simp
  refine ⟨by rw [scan2Batch_emissions]; rfl, ?_, by decide, ?_⟩
  · rw [hrun]
    rfl
  · rw [hrun]
    dsimp only
    rw [hr2]

/-- Claim C1, witness: with a callback that succeeds on no anomaly, the
`scan2Batch` cycle stores only the first of its two emissions and reports
the escaped exception. -/
theorem run_cycle_callback_failure_witness :
    (run_detection_cycle ⟨{}, []⟩ scan2Batch [] (fun a => a.dest_port == 0) 2.5 "t" 0).1.anomalies =
      [hostScanAnomaly 98] ∧
    (run_detection_cycle ⟨{}, []⟩ scan2Batch [] (fun a => a.dest_port == 0) 2.5 "t" 0).2 = false := by
  have hne : scan2Batch ≠ [] := by
    rw [scan2Batch]
    decide
  have h := run_cycle_callback_failure_aborts ⟨{}, []⟩ scan2Batch [] 2.5 "t" 0
    (fun a => a.dest_port == 0) [] (hostScanAnomaly 98) [hostScanAnomaly 99] hne
    (by rw [scan2Batch_emissions]; rfl)
    (by intro x hx; simp at hx)
    (by rw [hostScanAnomaly]; rfl)
  rw [h]
  exact ⟨by simp, rfl⟩

/-- Claim C6 (corrected): a missing or empty connection-log source makes
`_run_detection_cycle` return early, untouched and without error: *no*
detector runs — in particular the DNS batch of that cycle is never
evaluated — nothing is appended, and no history trim or baseline fold
happens. -/
theorem run_cycle_empty_conns (st : DetectorState) (dns : List DnsQuery)
    (cb : Anomaly → Bool) (z_thr : ℝ) (now : String) (now_sec : Nat) :
    run_detection_cycle st [] dns cb z_thr now now_sec = (st, true) := by
  rw [run_detection_cycle, if_pos rfl]

/-- A DNS batch of 21 TXT queries. -/
def txtOnlyDns : List DnsQuery :=
  List.replicate 21 { query := "ab.cd", qtype_name := "TXT" }

/-- Claim C6, counterexample: with an empty connection batch the cycle
appends nothing, even though the cycle's DNS batch (21 TXT queries) would
produce a `dns_tunneling` anomaly if the DNS detector were evaluated. -/
theorem run_cycle_empty_conns_counterexample :
    (run_detection_cycle ⟨{}, []⟩ [] txtOnlyDns (fun _ => true) 2.5 "t" 0).1.anomalies = [] ∧
    detect_dns_anomalies txtOnlyDns "t" ≠ [] := by
  constructor
  · rw [run_detection_cycle, if_pos rfl]
  · have hdga : txtOnlyDns.flatMap (fun q => dga_anomalies_for q "t") = [] := by
      rw [txtOnlyDns]
      simp [List.flatMap_replicate, dga_anomalies_for_txt_query]
    rw [detect_dns_anomalies, hdga, if_pos (by decide : txtCount txtOnlyDns > 20)]
    simp

/-- Method `AnomalyDetector.get_recent_anomalies`: `self.anomalies[-limit:]`.
A Python slice with start `-limit` takes the last `min(limit, len)`
elements when `limit ≥ 1`, but `-0 == 0`, so `limit = 0` takes the whole
list.  The `to_dict` reformatting (a field-for-field copy) is omitted. -/
def get_recent_anomalies (anoms : List Anomaly) (limit : Nat) : List Anomaly :=
  if limit = 0 then anoms else anoms.drop (anoms.length - limit)

/-- Claim C10 (confirmed): `get_recent_anomalies` with `limit = 0` returns
the whole stored history, not an empty list; with `limit ≥ 1` it returns
the most recent `min(limit, stored-count)` anomalies in chronological order
(a suffix of the history). -/
theorem get_recent_anomalies_spec (hist : List Anomaly) :
    get_recent_anomalies hist 0 = hist ∧
    ∀ limit : Nat, 1 ≤ limit →
      get_recent_anomalies hist limit = hist.drop (hist.length - limit) ∧
      (get_recent_anomalies hist limit).length = min limit hist.length ∧
      (get_recent_anomalies hist limit) <:+ hist := by
  constructor
  · rw [get_recent_anomalies, if_pos rfl]
  · intro limit hlimit
    have hne : limit ≠ 0 := by omega
    rw [get_recent_anomalies, if_neg hne]
    refine ⟨rfl, ?_, List.drop_suffix _ _⟩
    rw [List.length_drop]
    omega

/-- A placeholder record for the history witness. -/
noncomputable def someAnomaly : Anomaly :=
  { timestamp := "t", anomaly_type := "volume_anomaly", severity := 2,
    title := "Traffic Volume Anomaly" }

/-- Claim C10, witness: on a one-element history, `limit = 0` returns the
whole history and `limit = 2` returns `min 2 1 = 1` element. -/
theorem get_recent_anomalies_spec_witness :
    get_recent_anomalies [someAnomaly] 0 = [someAnomaly] ∧
    (get_recent_anomalies [someAnomaly] 2).length = min 2 1 := by
  refine ⟨(get_recent_anomalies_spec [someAnomaly]).1, ?_⟩
  have h := ((get_recent_anomalies_spec [someAnomaly]).2 2 (by norm_num)).2.1
  simpa using h

end NetworkTap
